import Mathlib

/-!
# Top Lawns booking server: SMS confirmation flow

A shallow embedding of `src/server.js`: the booking intake endpoint
(`POST /api/send-booking-sms`) and the reply webhook (`POST /api/sms-webhook`),
with the document store, the clock and the message transport as explicit
inputs.  Text is a list of characters; a field that may be absent in a
JavaScript object is an `Option`.
-/

set_option maxRecDepth 100000

namespace TopLawns

/-- Text values: JavaScript strings as character sequences. -/
abbrev Str := List Char

/-! ## String primitives used by the handlers -/

/-- Template-literal interpolation `${v}` of a value that may be `undefined`;
also the coercion applied by `String.prototype.includes` to its argument. -/
def jsString : Option Str → Str
  | some s => s
  | none => "undefined".toList

/-- White space and line terminators removed by `String.prototype.trim`. -/
def isTrimChar (c : Char) : Bool :=
  let n := c.toNat
  n = 0x09 || n = 0x0A || n = 0x0B || n = 0x0C || n = 0x0D || n = 0x20 ||
  n = 0xA0 || n = 0x1680 || (0x2000 ≤ n && n ≤ 0x200A) || n = 0x2028 ||
  n = 0x2029 || n = 0x202F || n = 0x205F || n = 0x3000 || n = 0xFEFF

/-- `s.trim()`. -/
def trim (s : Str) : Str :=
  ((s.dropWhile isTrimChar).reverse.dropWhile isTrimChar).reverse

/-- `s.toUpperCase()`, over the engine's per-character uppercase mapping
(a character may map to several, as `ß` does). -/
def toUpperCase (upper : Char → Str) (s : Str) : Str :=
  s.flatMap upper

/-- The uppercase mapping restricted to ASCII letters. -/
def asciiUpper (c : Char) : Str := [c.toUpper]

/-- `s.startsWith(p)`. -/
def startsWith (s p : Str) : Bool := p.isPrefixOf s

/-- `s.split(sep)` for a one-character separator. -/
def split (sep : Char) : Str → List Str
  | [] => [[]]
  | c :: cs =>
    if c = sep then [] :: split sep cs
    else
      match split sep cs with
      | [] => [[c]]
      | w :: ws => (c :: w) :: ws

/-- `s.includes(p)`: `p` occurs in `s` as a contiguous run. -/
def includes : Str → Str → Bool
  | [], p => p.isEmpty
  | c :: cs, p => p.isPrefixOf (c :: cs) || includes cs p

/-- `s.substring(i, j)` for `i ≤ j`. -/
def substring (s : Str) (i j : Nat) : Str := (s.drop i).take (j - i)

/-- Number-to-string conversion of a non-negative integer (`${Date.now()}`). -/
def numberToString (n : Nat) : Str := Nat.toDigits 10 n

/-! ## Identifier scheme -/

/-- The identifier assigned by intake: `BK-${Date.now()}`. -/
def newId (now : Nat) : Str := "BK-".toList ++ numberToString now

/-- The code quoted to the employee: `bookingId.substring(3, 9)`. -/
def shortCode (bookingId : Str) : Str := substring bookingId 3 9

/-! ## Data model -/

/-- The fields of a booking document that the server reads or writes. -/
structure Booking where
  customerName : Option Str
  phone : Option Str
  address : Option Str
  serviceDate : Option Str
  serviceTime : Option Str
  lotSize : Option Str
  estimatedPrice : Option Str
  instructions : Option Str
  status : Option Str
  bookingId : Option Str
  createdAt : Option Str
  photos : Option (List Str)
  confirmedAt : Option Str
  confirmedBy : Option Str
deriving DecidableEq

/-- A document of the `bookings` collection: its key and its data. -/
structure Doc where
  id : Str
  data : Booking
deriving DecidableEq

/-- The `bookings` collection, in the order the store enumerates it. -/
abbrev Store := List Doc

/-- An outbound message handed to `client.messages.create`. -/
structure Msg where
  body : Str
  fromNumber : Option Str
  toNumber : Option Str
deriving DecidableEq

/-- The collaborators of one request: the uppercase table, the clock, the
configured phone numbers, and whether each store call and each message send
succeeds. -/
structure Env where
  upper : Char → Str
  now : Nat
  isoNow : Str
  twilioPhone : Option Str
  employeePhone : Option Str
  storeReadOk : Bool
  storeWriteOk : Bool
  send : Msg → Option Str

/-! ## Store operations -/

/-- Whether a document with this key exists. -/
def Store.has (s : Store) (id : Str) : Bool := s.any (fun d => d.id = id)

/-- The data stored under a key, if any. -/
def Store.lookup (s : Store) (id : Str) : Option Booking :=
  (s.find? (fun d => d.id = id)).map Doc.data

/-- The effect of `doc(id).set(data)`: create the document or replace it. -/
def Store.set (s : Store) (id : Str) (data : Booking) : Store :=
  if s.has id then s.map (fun d => if d.id = id then ⟨id, data⟩ else d)
  else s ++ [⟨id, data⟩]

/-- The effect of `doc(id).update(fields)` on an existing document. -/
def Store.modify (s : Store) (id : Str) (f : Booking → Booking) : Store :=
  s.map (fun d => if d.id = id then ⟨d.id, f d.data⟩ else d)

/-- The call `doc(id).update(fields)`: rejected when the document is absent. -/
def Store.update (s : Store) (id : Str) (f : Booking → Booking) : Option Store :=
  if s.has id then some (s.modify id f) else none

/-- The status value `'pending'`. -/
def statusPending : Str := "pending".toList

/-- The status value `'confirmed'`. -/
def statusConfirmed : Str := "confirmed".toList

/-- The query `where('status', '==', 'pending')`. -/
def Store.pending (s : Store) : List Doc :=
  s.filter (fun d => d.data.status = some statusPending)

/-! ## Message templates -/

/-- The text `employeeMessage` of the intake endpoint. -/
def employeeMessage (booking : Booking) (bookingId : Str) : Str :=
  "🌱 NEW BOOKING REQUEST\n\nCustomer: ".toList ++ jsString booking.customerName ++
  "\nPhone: ".toList ++ jsString booking.phone ++
  "\nAddress: ".toList ++ jsString booking.address ++
  "\nDate: ".toList ++ jsString booking.serviceDate ++ " at ".toList ++
  jsString booking.serviceTime ++
  "\nLot Size: ".toList ++ jsString booking.lotSize ++
  "\nEstimate: ".toList ++ jsString booking.estimatedPrice ++
  "\n\nInstructions: ".toList ++
  (match booking.instructions with
   | some (c :: cs) => c :: cs
   | _ => "None".toList) ++
  "\n\nReply \"ACCEPT ".toList ++ shortCode bookingId ++
  "\" to accept this job.\n\nBooking ID: ".toList ++ bookingId

/-- The text `customerMessage` of the intake endpoint. -/
def customerMessage (booking : Booking) : Str :=
  "Hi ".toList ++ jsString booking.customerName ++
  "!\n\nThank you for booking with Top Lawns Lincoln!\n\nYour lawn mowing request for ".toList ++
  jsString booking.serviceDate ++ " at ".toList ++ jsString booking.serviceTime ++
  " has been received.\n\nEstimated price: ".toList ++ jsString booking.estimatedPrice ++
  ("\n\nOne of our team members will confirm your booking within 30 minutes. " ++
   "You'll receive a text when it's confirmed.\n\nQuestions? Text us back anytime!").toList

/-- The text `confirmMessage` of the webhook. -/
def confirmMessage (acceptedBooking : Booking) : Str :=
  "Great news, ".toList ++ jsString acceptedBooking.customerName ++
  "!\n\nYour lawn mowing is confirmed for ".toList ++
  jsString acceptedBooking.serviceDate ++ " at ".toList ++
  jsString acceptedBooking.serviceTime ++
  ".\n\nAddress: ".toList ++ jsString acceptedBooking.address ++
  "\nEstimated price: ".toList ++ jsString acceptedBooking.estimatedPrice ++
  "\n\nWe'll text you when we're on our way. See you soon! 🌱\n\n- Top Lawns Lincoln".toList

/-- The acknowledgment sent to the replier after a confirmation. -/
def ackMessage : Str :=
  "✅ Booking confirmed! Customer notified. Details saved to your schedule.".toList

/-- The notice sent to the replier when no booking was resolved. -/
def notFoundMessage (bookingIdPart : Option Str) : Str :=
  "❌ Booking ".toList ++ jsString bookingIdPart ++
  " not found or already processed.".toList

/-- The empty acknowledgment document returned to the transport. -/
def emptyAck : Str := "<Response></Response>".toList

/-! ## Reply webhook: `POST /api/sms-webhook` -/

/-- The fields of the webhook request body that the handler reads. `Body` is
`none` when the field is missing (or is no string), so that
`req.body.Body.trim()` throws. -/
structure WebhookReq where
  Body : Option Str
  From : Option Str
deriving DecidableEq

/-- A response written with `res.status(code).send(body)`. -/
structure Response where
  status : Nat
  body : Str
deriving DecidableEq

/-- What one webhook invocation leaves behind: the store, the messages handed
to the transport (in order) and the responses written. -/
structure Outcome where
  store : Store
  sent : List Msg
  responses : List Response
deriving DecidableEq

/-- The text `incomingMessage`: `Body.trim().toUpperCase()`. -/
def normalize (upper : Char → Str) (body : Str) : Str :=
  toUpperCase upper (trim body)

/-- The value `bookingIdPart`: `incomingMessage.split(' ')[1]`. -/
def bookingIdPart (incomingMessage : Str) : Option Str :=
  (split ' ' incomingMessage)[1]?

/-- The `snapshot.forEach` loop: every document whose key includes the
candidate overwrites `acceptedBooking` and `bookingId`. -/
def matchLoop (part : Option Str) (snapshot : List Doc) :
    Option Booking × Option Str :=
  snapshot.foldl
    (fun acc doc => if includes doc.id (jsString part) then (some doc.data, some doc.id) else acc)
    (none, none)

/-- What the handler holds once the pending snapshot has been read. -/
inductive Resolution
  | threw
  | ignored
  | resolved (part : Option Str) (acceptedBooking : Option Booking) (bookingId : Option Str)
deriving DecidableEq

/-- First half of the handler, up to and including the `forEach` loop over the
pending snapshot. -/
def resolveStep (env : Env) (store : Store) (req : WebhookReq) : Resolution :=
  match req.Body with
  | none => Resolution.threw
  | some body =>
    let incomingMessage := normalize env.upper body
    if startsWith incomingMessage "ACCEPT".toList then
      let part := bookingIdPart incomingMessage
      if env.storeReadOk then
        let found := matchLoop part store.pending
        Resolution.resolved part found.1 found.2
      else Resolution.threw
    else Resolution.ignored

/-- The fields written by the webhook's `update` call. -/
def confirmFields (env : Env) (req : WebhookReq) (b : Booking) : Booking :=
  { b with
    status := some statusConfirmed
    confirmedAt := some env.isoNow
    confirmedBy := req.From }

/-- Second half of the handler: the store write, the outbound messages and the
response, on the store as it is when this half runs. An exception anywhere
ends in the `catch` block, which answers with status 500. -/
def applyStep (env : Env) (store : Store) (req : WebhookReq) : Resolution → Outcome
  | Resolution.threw => ⟨store, [], [⟨500, emptyAck⟩]⟩
  | Resolution.ignored => ⟨store, [], [⟨200, emptyAck⟩]⟩
  | Resolution.resolved _ (some acceptedBooking) (some (c :: cs)) =>
    match (if env.storeWriteOk then store.update (c :: cs) (confirmFields env req) else none) with
    | none => ⟨store, [], [⟨500, emptyAck⟩]⟩
    | some store1 =>
      let m1 : Msg := ⟨confirmMessage acceptedBooking, env.twilioPhone, acceptedBooking.phone⟩
      match env.send m1 with
      | none => ⟨store1, [m1], [⟨500, emptyAck⟩]⟩
      | some _ =>
        let m2 : Msg := ⟨ackMessage, env.twilioPhone, req.From⟩
        match env.send m2 with
        | none => ⟨store1, [m1, m2], [⟨500, emptyAck⟩]⟩
        | some _ => ⟨store1, [m1, m2], [⟨200, emptyAck⟩]⟩
  | Resolution.resolved part _ _ =>
    let m : Msg := ⟨notFoundMessage part, env.twilioPhone, req.From⟩
    match env.send m with
    | none => ⟨store, [m], [⟨500, emptyAck⟩]⟩
    | some _ => ⟨store, [m], [⟨200, emptyAck⟩]⟩

/-- The handler of `POST /api/sms-webhook`. -/
def smsWebhook (env : Env) (store : Store) (req : WebhookReq) : Outcome :=
  applyStep env store req (resolveStep env store req)

/-! ## Booking intake: `POST /api/send-booking-sms` -/

/-- The intake request: `bookingData` after `JSON.parse` (`none` when parsing
throws or the value is no object) and the stored names of the uploaded
photos (`req.files`, empty when absent). -/
structure IntakeReq where
  bookingData : Option Booking
  files : List Str
deriving DecidableEq

/-- The JSON answer of the intake endpoint. -/
inductive IntakeResponse
  | success (bookingId : Str) (employeeSid customerSid : Str)
  | failure
deriving DecidableEq

/-- What one intake call leaves behind. -/
structure IntakeOutcome where
  store : Store
  sent : List Msg
  responses : List IntakeResponse
deriving DecidableEq

/-- The record intake persists: the payload with `bookingId`, `createdAt` and,
when files were uploaded, `photos` assigned. -/
def intakeRecord (env : Env) (req : IntakeReq) (booking : Booking) : Booking :=
  { booking with
    bookingId := some (newId env.now)
    createdAt := some env.isoNow
    photos := if req.files.length > 0 then some req.files else booking.photos }

/-- The handler of `POST /api/send-booking-sms`. -/
def sendBookingSms (env : Env) (store : Store) (req : IntakeReq) : IntakeOutcome :=
  match req.bookingData with
  | none => ⟨store, [], [IntakeResponse.failure]⟩
  | some payload =>
    let bookingId := newId env.now
    let booking := intakeRecord env req payload
    if env.storeWriteOk then
      let store1 := store.set bookingId booking
      let m1 : Msg := ⟨employeeMessage booking bookingId, env.twilioPhone, env.employeePhone⟩
      match env.send m1 with
      | none => ⟨store1, [m1], [IntakeResponse.failure]⟩
      | some employeeSid =>
        let m2 : Msg := ⟨customerMessage booking, env.twilioPhone, booking.phone⟩
        match env.send m2 with
        | none => ⟨store1, [m1, m2], [IntakeResponse.failure]⟩
        | some customerSid =>
          ⟨store1, [m1, m2], [IntakeResponse.success bookingId employeeSid customerSid]⟩
    else ⟨store, [], [IntakeResponse.failure]⟩

/-- A run of intake calls, each with its own clock reading and collaborators,
threading the store. -/
def intakeRun (store : Store) : List (Env × IntakeReq) → Store
  | [] => store
  | call :: calls => intakeRun (sendBookingSms call.1 store call.2).store calls

/-! ## Notions used to state the properties -/

/-- The last document of a snapshot whose key includes the candidate. -/
def lastMatch (part : Option Str) (snapshot : List Doc) : Option Doc :=
  (snapshot.filter (fun d => includes d.id (jsString part))).getLast?

/-- Splitting at every character satisfying `p` (empty pieces included). -/
def splitWhere (p : Char → Bool) : Str → List Str
  | [] => [[]]
  | c :: cs =>
    if p c then [] :: splitWhere p cs
    else
      match splitWhere p cs with
      | [] => [[c]]
      | w :: ws => (c :: w) :: ws

/-- Following the specification's words: the second whitespace-delimited token
of a text, the tokens being its maximal runs of non-whitespace characters. -/
def secondToken (s : Str) : Option Str :=
  ((splitWhere isTrimChar s).filter (fun w => !w.isEmpty))[1]?

/-- Reading a decimal numeral back, most significant digit first. -/
def readDecimal (acc : Nat) (ds : Str) : Nat :=
  ds.foldl (fun a c => 10 * a + (c.toNat - 48)) acc

/-! ## Sample data -/

/-- Collaborators that never fail, with the clock at `now`. -/
def okEnv (now : Nat) : Env :=
  { upper := asciiUpper
    now := now
    isoNow := "2024-06-01T09:00:00.000Z".toList
    twilioPhone := some "+15550000001".toList
    employeePhone := some "+15550000002".toList
    storeReadOk := true
    storeWriteOk := true
    send := fun _ => some "SM1".toList }

/-- The intake payload given as the specification's example. -/
def alicePayload : Booking :=
  { customerName := some "Alice".toList
    phone := some "+15551234567".toList
    address := some "1 Elm St".toList
    serviceDate := some "2024-06-01".toList
    serviceTime := some "10:00 AM".toList
    lotSize := some "0.25 acre".toList
    estimatedPrice := some "$45".toList
    instructions := none
    status := none
    bookingId := none
    createdAt := none
    photos := none
    confirmedAt := none
    confirmedBy := none }

/-- The example payload as a client that supplies the status would send it. -/
def alicePending : Booking := { alicePayload with status := some statusPending }

/-- A second customer's payload, with the status supplied. -/
def bobPending : Booking :=
  { alicePending with customerName := some "Bob".toList, phone := some "+15557654321".toList }

/-- The stored example booking, created at clock reading 1730000000000. -/
def aliceDoc : Doc := ⟨newId 1730000000000, alicePending⟩

/-- A second stored booking, created one millisecond later. -/
def bobDoc : Doc := ⟨newId 1730000000001, bobPending⟩

/-- A pending booking created some 115 days later, under another short code. -/
def carolDoc : Doc := ⟨newId 1740000000000, bobPending⟩

/-- The reply `accept 173000` from the employee's phone. -/
def acceptReq : WebhookReq := ⟨some "accept 173000".toList, some "+15550000002".toList⟩

/-- The same reply sent from a second phone. -/
def secondReq : WebhookReq := ⟨some "ACCEPT 173000".toList, some "+15550000003".toList⟩

/-- The collaborators of the second reply, one second later. -/
def laterEnv : Env := { okEnv 6 with isoNow := "2024-06-01T09:00:01.000Z".toList }

/-- First reply of the interleaving: it resolves and applies on the initial
store. -/
def raceFirst : Outcome :=
  applyStep (okEnv 5) [aliceDoc] acceptReq (resolveStep (okEnv 5) [aliceDoc] acceptReq)

/-- Second reply of the interleaving: it resolved on the initial store, before
the first reply wrote, and applies on the store the first reply left. -/
def raceSecond : Outcome :=
  applyStep laterEnv raceFirst.store secondReq (resolveStep laterEnv [aliceDoc] secondReq)

/-- The example payload without its `customerName`. -/
def namelessPayload : Booking := { alicePayload with customerName := none }

/-- The example payload without its `phone`. -/
def phonelessPayload : Booking := { alicePayload with phone := none }

/-- Collaborators whose transport refuses a message that has no recipient. -/
def strictEnv (now : Nat) : Env :=
  { okEnv now with
    send := fun m => match m.toNumber with
      | none => none
      | some _ => some "SM1".toList }

/-- Two intake calls one millisecond apart, statuses supplied by the client. -/
def twoIntakes : Store :=
  intakeRun [] [(okEnv 1730000000000, ⟨some alicePending, []⟩),
                (okEnv 1730000000001, ⟨some bobPending, []⟩)]

/-- Two intake calls at the same clock reading. -/
def sameClockIntakes : Store :=
  intakeRun [] [(okEnv 1730000000000, ⟨some alicePending, []⟩),
                (okEnv 1730000000000, ⟨some bobPending, []⟩)]

/-- A pending booking created before the code `173000` came into use. -/
def daveDoc : Doc := ⟨newId 1699999999999, alicePending⟩

/-- The reply `ACCEPT  173000`, typed with two spaces. -/
def doubleSpaceReq : WebhookReq := ⟨some "ACCEPT  173000".toList, some "+15550000002".toList⟩

/-! ## Facts about the string primitives -/

theorem includes_eq_true_iff (s p : Str) : includes s p = true ↔ p <:+: s := by
  induction s with
  | nil => simp [includes, List.isEmpty_iff]
  | cons c cs ih =>
    simp only [includes, Bool.or_eq_true, ih, List.infix_cons_iff, List.isPrefixOf_iff_prefix]

theorem includes_substring (s : Str) (i j : Nat) : includes s (substring s i j) = true := by
  rw [includes_eq_true_iff]
  refine ⟨s.take i, (s.drop i).drop (j - i), ?_⟩
  simp [substring, List.append_assoc]

theorem mem_of_includes {s p : Str} (h : includes s p = true) {c : Char} (hc : c ∈ p) : c ∈ s :=
  ((includes_eq_true_iff s p).1 h).subset hc

theorem split_no_sep (sep : Char) (w : Str) (h : sep ∉ w) : split sep w = [w] := by
  induction w with
  | nil => rfl
  | cons c cs ih =>
    have hc : c ≠ sep := fun e => h (by simp [e])
    have hcs : sep ∉ cs := fun e => h (List.mem_cons_of_mem _ e)
    simp [split, hc, ih hcs]

theorem split_append_sep (sep : Char) (w rest : Str) (h : sep ∉ w) :
    split sep (w ++ sep :: rest) = w :: split sep rest := by
  induction w with
  | nil => simp [split]
  | cons c cs ih =>
    have hc : c ≠ sep := fun e => h (by simp [e])
    have hcs : sep ∉ cs := fun e => h (List.mem_cons_of_mem _ e)
    simp [split, hc, ih hcs]

/-! ## Facts about identifiers -/

theorem digitChar_value (k : Nat) (h : k < 10) : (Nat.digitChar k).toNat - 48 = k := by
  interval_cases k <;> rfl

theorem digitChar_isDigit (k : Nat) (h : k < 10) : (Nat.digitChar k).isDigit = true := by
  interval_cases k <;> rfl

theorem readDecimal_toDigitsCore (f : Nat) :
    ∀ (n : Nat) (ds : Str), n < f →
      readDecimal 0 (Nat.toDigitsCore 10 f n ds) = readDecimal n ds := by
  induction f with
  | zero => intro n ds h; omega
  | succ f ih =>
    intro n ds h
    have hm : n % 10 < 10 := Nat.mod_lt _ (by decide)
    by_cases h0 : n / 10 = 0
    · have hn : n % 10 = n := by omega
      have hv : (Nat.digitChar n).toNat - 48 = n := by
        have := digitChar_value _ hm
        rwa [hn] at this
      simp [Nat.toDigitsCore, h0, readDecimal, hn, hv]
    · have hlt : n / 10 < f := by omega
      simp only [Nat.toDigitsCore, h0, if_false]
      rw [ih (n / 10) _ hlt]
      have hn : 10 * (n / 10) + n % 10 = n := Nat.div_add_mod n 10
      simp [readDecimal, digitChar_value _ hm, hn]

theorem toDigitsCore_digits (f : Nat) :
    ∀ (n : Nat) (ds : Str) (c : Char), c ∈ Nat.toDigitsCore 10 f n ds →
      c ∈ ds ∨ c.isDigit = true := by
  induction f with
  | zero => intro n ds c h; exact Or.inl (by simpa [Nat.toDigitsCore] using h)
  | succ f ih =>
    intro n ds c h
    have hm : n % 10 < 10 := Nat.mod_lt _ (by decide)
    by_cases h0 : n / 10 = 0
    · simp only [Nat.toDigitsCore, h0, if_true, List.mem_cons] at h
      rcases h with h | h
      · exact Or.inr (h ▸ digitChar_isDigit _ hm)
      · exact Or.inl h
    · simp only [Nat.toDigitsCore, h0, if_false] at h
      rcases ih _ _ _ h with h | h
      · rcases List.mem_cons.1 h with h | h
        · exact Or.inr (h ▸ digitChar_isDigit _ hm)
        · exact Or.inl h
      · exact Or.inr h

theorem numberToString_digits (n : Nat) (c : Char) (h : c ∈ numberToString n) :
    c.isDigit = true := by
  rcases toDigitsCore_digits _ _ _ _ h with h | h
  · simp at h
  · exact h

theorem readDecimal_numberToString (n : Nat) : readDecimal 0 (numberToString n) = n := by
  unfold numberToString Nat.toDigits
  rw [readDecimal_toDigitsCore (n + 1) n [] (Nat.lt_succ_self n)]
  rfl

theorem numberToString_injective : Function.Injective numberToString := by
  intro a b h
  have := congrArg (readDecimal 0) h
  simpa [readDecimal_numberToString] using this

theorem newId_injective : Function.Injective newId := fun _ _ h =>
  numberToString_injective (List.append_cancel_left h)

theorem newId_ne_nil (t : Nat) : newId t ≠ [] := by
  simp [newId]

theorem shortCode_newId_digits (t : Nat) (c : Char) (h : c ∈ shortCode (newId t)) :
    c.isDigit = true := by
  have h1 : c ∈ numberToString t := by
    have : shortCode (newId t) = (numberToString t).take 6 := by
      simp [shortCode, substring, newId]
    rw [this] at h
    exact List.mem_of_mem_take h
  exact numberToString_digits t c h1

theorem newId_not_includes_undefined (t : Nat) :
    includes (newId t) "undefined".toList = false := by
  cases hinc : includes (newId t) "undefined".toList with
  | false => rfl
  | true =>
    have hu : 'u' ∈ newId t := mem_of_includes hinc (by decide)
    simp only [newId, List.mem_append] at hu
    rcases hu with hu | hu
    · exact absurd hu (by decide)
    · exact absurd (numberToString_digits t 'u' hu) (by decide)

/-! ## Facts about the store and the match loop -/

theorem matchLoop_snoc (part : Option Str) (l : List Doc) (d : Doc) :
    matchLoop part (l ++ [d]) =
      if includes d.id (jsString part) then (some d.data, some d.id) else matchLoop part l := by
  simp [matchLoop, List.foldl_append]

theorem lastMatch_snoc (part : Option Str) (l : List Doc) (d : Doc) :
    lastMatch part (l ++ [d]) =
      if includes d.id (jsString part) then some d else lastMatch part l := by
  by_cases h : includes d.id (jsString part) = true
  · simp [lastMatch, List.filter_append, h]
  · simp [lastMatch, List.filter_append, h]

theorem matchLoop_eq_lastMatch (part : Option Str) (l : List Doc) :
    matchLoop part l = ((lastMatch part l).map Doc.data, (lastMatch part l).map Doc.id) := by
  induction l using List.reverseRecOn with
  | nil => rfl
  | append_singleton l d ih =>
    rw [matchLoop_snoc, lastMatch_snoc]
    by_cases h : includes d.id (jsString part) = true
    · simp [h]
    · simp [h, ih]

theorem lastMatch_mem {part : Option Str} {l : List Doc} {d : Doc}
    (h : lastMatch part l = some d) : d ∈ l ∧ includes d.id (jsString part) = true := by
  have hm : d ∈ l.filter (fun d => includes d.id (jsString part)) :=
    List.mem_of_getLast?_eq_some h
  simpa [List.mem_filter] using hm

theorem lastMatch_eq_none {part : Option Str} {l : List Doc}
    (h : ∀ d ∈ l, includes d.id (jsString part) = false) : lastMatch part l = none := by
  have : l.filter (fun d => includes d.id (jsString part)) = [] := by
    simpa [List.filter_eq_nil_iff] using h
  simp [lastMatch, this]

theorem lastMatch_unique {part : Option Str} {l : List Doc} {b : Doc}
    (hb : b ∈ l) (hinc : includes b.id (jsString part) = true)
    (huniq : ∀ d ∈ l, includes d.id (jsString part) = true → d = b) :
    lastMatch part l = some b := by
  cases h : lastMatch part l with
  | none =>
    have hnil : l.filter (fun d => includes d.id (jsString part)) = [] := by
      simpa [lastMatch] using h
    have : b ∈ l.filter (fun d => includes d.id (jsString part)) := by
      simp [List.mem_filter, hb, hinc]
    rw [hnil] at this
    exact absurd this (List.not_mem_nil _)
  | some d =>
    have hd := lastMatch_mem h
    rw [huniq d hd.1 hd.2]

theorem pending_subset {store : Store} {d : Doc} (h : d ∈ store.pending) : d ∈ store :=
  List.mem_of_mem_filter h

theorem has_of_mem {store : Store} {d : Doc} (h : d ∈ store) : store.has d.id = true := by
  simp only [Store.has, List.any_eq_true]
  exact ⟨d, h, by simp⟩

/-! ## Facts about the webhook -/

theorem resolveStep_accept (env : Env) (store : Store) (req : WebhookReq) (body : Str)
    (hbody : req.Body = some body)
    (hacc : startsWith (normalize env.upper body) "ACCEPT".toList = true)
    (hread : env.storeReadOk = true) :
    resolveStep env store req =
      Resolution.resolved (bookingIdPart (normalize env.upper body))
        ((lastMatch (bookingIdPart (normalize env.upper body)) store.pending).map Doc.data)
        ((lastMatch (bookingIdPart (normalize env.upper body)) store.pending).map Doc.id) := by
  simp only [resolveStep, hbody]
  rw [if_pos hacc, if_pos hread, matchLoop_eq_lastMatch]

theorem applyStep_matched (env : Env) (store : Store) (req : WebhookReq) (part : Option Str)
    (last : Doc) (hmem : last ∈ store) (hid : last.id ≠ [])
    (hwrite : env.storeWriteOk = true)
    (hsend : env.send ⟨confirmMessage last.data, env.twilioPhone, last.data.phone⟩ ≠ none) :
    (applyStep env store req (Resolution.resolved part (some last.data) (some last.id))).store =
        store.modify last.id (confirmFields env req) ∧
    (applyStep env store req (Resolution.resolved part (some last.data) (some last.id))).sent =
        [⟨confirmMessage last.data, env.twilioPhone, last.data.phone⟩,
         ⟨ackMessage, env.twilioPhone, req.From⟩] := by
  have hhas := has_of_mem hmem
  cases hl : last.id with
  | nil => exact absurd hl hid
  | cons c cs =>
    rw [hl] at hhas
    cases h1 : env.send ⟨confirmMessage last.data, env.twilioPhone, last.data.phone⟩ with
    | none => exact absurd h1 hsend
    | some sid =>
      cases h2 : env.send ⟨ackMessage, env.twilioPhone, req.From⟩ <;>
        simp [applyStep, hwrite, Store.update, hhas, h1, h2]

theorem applyStep_unmatched (env : Env) (store : Store) (req : WebhookReq) (part : Option Str) :
    (applyStep env store req (Resolution.resolved part none none)).store = store ∧
    (applyStep env store req (Resolution.resolved part none none)).sent =
        [⟨notFoundMessage part, env.twilioPhone, req.From⟩] := by
  cases h : env.send ⟨notFoundMessage part, env.twilioPhone, req.From⟩ <;>
    simp [applyStep, h]

theorem bookingIdPart_accept_code (code : Str) (h : ' ' ∉ code) :
    bookingIdPart ("ACCEPT ".toList ++ code) = some code := by
  have e : "ACCEPT ".toList ++ code = "ACCEPT".toList ++ ' ' :: code := rfl
  rw [bookingIdPart, e, split_append_sep ' ' _ _ (by decide), split_no_sep ' ' code h]
  rfl

theorem startsWith_accept_code (code : Str) :
    startsWith ("ACCEPT ".toList ++ code) "ACCEPT".toList = true := by
  have e : "ACCEPT ".toList ++ code = "ACCEPT".toList ++ ' ' :: code := rfl
  rw [e, startsWith, List.isPrefixOf_iff_prefix]
  exact List.prefix_append _ _

theorem shortCode_newId_no_space (t : Nat) : ' ' ∉ shortCode (newId t) := fun h =>
  absurd (shortCode_newId_digits t ' ' h) (by decide)

theorem mem_modify {store : Store} {d : Doc} (h : d ∈ store) (f : Booking → Booking) :
    (⟨d.id, f d.data⟩ : Doc) ∈ store.modify d.id f := by
  simp only [Store.modify, List.mem_map]
  exact ⟨d, h, by simp⟩

/-! ## The reply webhook: acceptance, no match, acknowledgment -/

/-- C1: when the normalized body is `ACCEPT`, a space and the short code of a
pending booking `B` created by intake, and `B` is the only pending booking
whose identifier contains that code, the webhook (with the store calls
succeeding and the transport accepting the customer message) marks `B`
confirmed with `confirmedBy` the sender and `confirmedAt` the clock reading,
changes no other document, and hands exactly two messages to the transport:
the confirmation to the phone of `B`, then the acknowledgment to the sender. -/
theorem accept_unique_pending_confirms (env : Env) (store : Store) (req : WebhookReq)
    (body : Str) (B : Doc) (t : Nat)
    (hbody : req.Body = some body)
    (hnorm : normalize env.upper body = "ACCEPT ".toList ++ shortCode B.id)
    (hB : B ∈ store.pending)
    (hid : B.id = newId t)
    (huniq : ∀ d ∈ store.pending, includes d.id (shortCode B.id) = true → d = B)
    (hread : env.storeReadOk = true) (hwrite : env.storeWriteOk = true)
    (hsend : env.send ⟨confirmMessage B.data, env.twilioPhone, B.data.phone⟩ ≠ none) :
    (⟨B.id, { B.data with
                status := some statusConfirmed
                confirmedAt := some env.isoNow
                confirmedBy := req.From }⟩ : Doc) ∈ (smsWebhook env store req).store ∧
    (∀ d ∈ store, d.id ≠ B.id → d ∈ (smsWebhook env store req).store) ∧
    (smsWebhook env store req).store.length = store.length ∧
    (smsWebhook env store req).sent =
      [⟨confirmMessage B.data, env.twilioPhone, B.data.phone⟩,
       ⟨ackMessage, env.twilioPhone, req.From⟩] := by
  have hsp : ' ' ∉ shortCode B.id := hid ▸ shortCode_newId_no_space t
  have hpart : bookingIdPart (normalize env.upper body) = some (shortCode B.id) := by
    rw [hnorm]; exact bookingIdPart_accept_code _ hsp
  have hacc : startsWith (normalize env.upper body) "ACCEPT".toList = true := by
    rw [hnorm]; exact startsWith_accept_code _
  have hlast : lastMatch (some (shortCode B.id)) store.pending = some B :=
    lastMatch_unique hB (includes_substring _ _ _) huniq
  have hne : B.id ≠ [] := hid ▸ newId_ne_nil t
  have hres := resolveStep_accept env store req body hbody hacc hread
  rw [hpart, hlast] at hres
  have happ := applyStep_matched env store req (some (shortCode B.id)) B
    (pending_subset hB) hne hwrite hsend
  simp only [Option.map_some'] at hres
  unfold smsWebhook
  rw [hres, happ.1, happ.2]
  refine ⟨mem_modify (pending_subset hB) _, ?_, by simp [Store.modify], rfl⟩
  intro d hd hne'
  simp only [Store.modify, List.mem_map]
  exact ⟨d, hd, by simp [hne']⟩

/-- C4: when the normalized body begins with `ACCEPT` and no pending booking's
identifier contains the candidate (for a body with no second token the
candidate is `undefined`, which no intake identifier contains), the webhook,
once the pending set has been read, leaves the store unchanged and hands
exactly one message to the transport: the not-found notice to the sender. -/
theorem accept_no_match_notifies (env : Env) (store : Store) (req : WebhookReq) (body : Str)
    (hbody : req.Body = some body)
    (hacc : startsWith (normalize env.upper body) "ACCEPT".toList = true)
    (hnone :
      (∀ d ∈ store.pending,
        includes d.id (jsString (bookingIdPart (normalize env.upper body))) = false) ∨
      (bookingIdPart (normalize env.upper body) = none ∧
        ∀ d ∈ store.pending, ∃ t, d.id = newId t))
    (hread : env.storeReadOk = true) :
    (smsWebhook env store req).store = store ∧
    (smsWebhook env store req).sent =
      [⟨notFoundMessage (bookingIdPart (normalize env.upper body)), env.twilioPhone,
        req.From⟩] := by
  have hno : ∀ d ∈ store.pending,
      includes d.id (jsString (bookingIdPart (normalize env.upper body))) = false := by
    rcases hnone with h | ⟨hp, hids⟩
    · exact h
    · intro d hd
      obtain ⟨t, ht⟩ := hids d hd
      rw [hp, ht]
      exact newId_not_includes_undefined t
  have hres := resolveStep_accept env store req body hbody hacc hread
  rw [lastMatch_eq_none hno] at hres
  unfold smsWebhook
  rw [hres]
  exact applyStep_unmatched env store req _

/-- C9: whatever the request and whatever the store and the transport do, the
webhook writes exactly one response, and its body is the empty acknowledgment
document. -/
theorem webhook_always_acknowledges (env : Env) (store : Store) (req : WebhookReq) :
    ∃ code, (smsWebhook env store req).responses = [⟨code, emptyAck⟩] := by
  unfold smsWebhook
  generalize resolveStep env store req = r
  cases r with
  | threw => exact ⟨500, rfl⟩
  | ignored => exact ⟨200, rfl⟩
  | resolved part ab id =>
    unfold applyStep
    split
    · exact ⟨_, rfl⟩
    · exact ⟨_, rfl⟩
    · split
      · exact ⟨_, rfl⟩
      · dsimp only
        split
        · exact ⟨_, rfl⟩
        · split <;> exact ⟨_, rfl⟩
    · dsimp only
      split <;> exact ⟨_, rfl⟩

theorem accept_unique_pending_confirms_witness :
    (⟨aliceDoc.id, { aliceDoc.data with
                status := some statusConfirmed
                confirmedAt := some (okEnv 5).isoNow
                confirmedBy := acceptReq.From }⟩ : Doc) ∈
        (smsWebhook (okEnv 5) [aliceDoc] acceptReq).store ∧
    (∀ d ∈ [aliceDoc], d.id ≠ aliceDoc.id → d ∈ (smsWebhook (okEnv 5) [aliceDoc] acceptReq).store) ∧
    (smsWebhook (okEnv 5) [aliceDoc] acceptReq).store.length = [aliceDoc].length ∧
    (smsWebhook (okEnv 5) [aliceDoc] acceptReq).sent =
      [⟨confirmMessage aliceDoc.data, (okEnv 5).twilioPhone, aliceDoc.data.phone⟩,
       ⟨ackMessage, (okEnv 5).twilioPhone, acceptReq.From⟩] :=
  accept_unique_pending_confirms (okEnv 5) [aliceDoc] acceptReq "accept 173000".toList aliceDoc
    1730000000000 rfl (by decide) (by decide) rfl (by decide) rfl rfl (by decide)

theorem accept_no_match_notifies_witness :
    (smsWebhook (okEnv 5) [aliceDoc] ⟨some "accept".toList, some "+15550000002".toList⟩).store =
      [aliceDoc] ∧
    (smsWebhook (okEnv 5) [aliceDoc] ⟨some "accept".toList, some "+15550000002".toList⟩).sent =
      [⟨notFoundMessage (bookingIdPart (normalize (okEnv 5).upper "accept".toList)),
        (okEnv 5).twilioPhone, some "+15550000002".toList⟩] :=
  accept_no_match_notifies (okEnv 5) [aliceDoc]
    ⟨some "accept".toList, some "+15550000002".toList⟩ "accept".toList rfl (by decide)
    (Or.inl (by decide)) rfl

/-! ## Ambiguous replies and repeated replies -/

theorem has_perm {s1 s2 : Store} (h : s1.Perm s2) (id : Str) : s1.has id = s2.has id := by
  rw [Bool.eq_iff_iff]
  simp only [Store.has, List.any_eq_true]
  constructor
  · rintro ⟨d, hd, e⟩; exact ⟨d, h.mem_iff.1 hd, e⟩
  · rintro ⟨d, hd, e⟩; exact ⟨d, h.mem_iff.2 hd, e⟩

theorem applyStep_perm (env : Env) {s1 s2 : Store} (req : WebhookReq) (r : Resolution)
    (h : s1.Perm s2) :
    (applyStep env s1 req r).sent = (applyStep env s2 req r).sent ∧
    (applyStep env s1 req r).responses = (applyStep env s2 req r).responses ∧
    (applyStep env s1 req r).store.Perm (applyStep env s2 req r).store := by
  cases r with
  | threw => exact ⟨rfl, rfl, h⟩
  | ignored => exact ⟨rfl, rfl, h⟩
  | resolved part ab id =>
    have hnf : ∀ s : Store, (applyStep env s req (Resolution.resolved part none none)) =
        match env.send ⟨notFoundMessage part, env.twilioPhone, req.From⟩ with
        | none => ⟨s, [⟨notFoundMessage part, env.twilioPhone, req.From⟩], [⟨500, emptyAck⟩]⟩
        | some _ => ⟨s, [⟨notFoundMessage part, env.twilioPhone, req.From⟩], [⟨200, emptyAck⟩]⟩ := by
      intro s; rfl
    cases ab with
    | none =>
      cases id with
      | none =>
        rw [hnf s1, hnf s2]
        cases env.send ⟨notFoundMessage part, env.twilioPhone, req.From⟩ <;> exact ⟨rfl, rfl, h⟩
      | some i =>
        simp only [applyStep]
        cases env.send ⟨notFoundMessage part, env.twilioPhone, req.From⟩ <;> exact ⟨rfl, rfl, h⟩
    | some b =>
      cases id with
      | none =>
        simp only [applyStep]
        cases env.send ⟨notFoundMessage part, env.twilioPhone, req.From⟩ <;> exact ⟨rfl, rfl, h⟩
      | some i =>
        cases i with
        | nil =>
          simp only [applyStep]
          cases env.send ⟨notFoundMessage part, env.twilioPhone, req.From⟩ <;> exact ⟨rfl, rfl, h⟩
        | cons c cs =>
          have hm : (s1.modify (c :: cs) (confirmFields env req)).Perm
              (s2.modify (c :: cs) (confirmFields env req)) := h.map _
          simp only [applyStep, Store.update, has_perm h (c :: cs)]
          cases env.storeWriteOk <;> cases s2.has (c :: cs) <;>
            cases env.send ⟨confirmMessage b, env.twilioPhone, b.phone⟩ <;>
            cases env.send ⟨ackMessage, env.twilioPhone, req.From⟩ <;>
            first | exact ⟨rfl, rfl, h⟩ | exact ⟨rfl, rfl, hm⟩

theorem resolveStep_congr (env : Env) (s1 s2 : Store) (req : WebhookReq)
    (hlast : ∀ body, req.Body = some body →
      lastMatch (bookingIdPart (normalize env.upper body)) s1.pending =
        lastMatch (bookingIdPart (normalize env.upper body)) s2.pending) :
    resolveStep env s1 req = resolveStep env s2 req := by
  cases hb : req.Body with
  | none => simp [resolveStep, hb]
  | some body =>
    simp only [resolveStep, hb, matchLoop_eq_lastMatch, hlast body hb]

theorem webhook_confirms_last_match (env : Env) (store : Store) (req : WebhookReq)
    (body : Str) (last : Doc)
    (hbody : req.Body = some body)
    (hacc : startsWith (normalize env.upper body) "ACCEPT".toList = true)
    (hlast : lastMatch (bookingIdPart (normalize env.upper body)) store.pending = some last)
    (hid : last.id ≠ [])
    (hread : env.storeReadOk = true) (hwrite : env.storeWriteOk = true)
    (hsend : env.send ⟨confirmMessage last.data, env.twilioPhone, last.data.phone⟩ ≠ none) :
    (smsWebhook env store req).store = store.modify last.id (confirmFields env req) ∧
    (smsWebhook env store req).sent =
      [⟨confirmMessage last.data, env.twilioPhone, last.data.phone⟩,
       ⟨ackMessage, env.twilioPhone, req.From⟩] := by
  have hres := resolveStep_accept env store req body hbody hacc hread
  rw [hlast] at hres
  simp only [Option.map_some'] at hres
  unfold smsWebhook
  rw [hres]
  exact applyStep_matched env store req _ last (pending_subset (lastMatch_mem hlast).1) hid
    hwrite hsend

/-- C2 (counterexample): two pending bookings whose identifiers both contain
the code `173000`; enumerated as Alice then Bob the reply confirms Bob and
texts Bob, enumerated as Bob then Alice it confirms Alice and texts Alice. -/
theorem ambiguous_reply_depends_on_enumeration :
    List.Perm [aliceDoc, bobDoc] [bobDoc, aliceDoc] ∧
    (Store.pending [aliceDoc, bobDoc]).map (fun d => includes d.id "173000".toList) =
      [true, true] ∧
    ((smsWebhook (okEnv 5) [aliceDoc, bobDoc] acceptReq).sent.map Msg.toNumber =
      [bobDoc.data.phone, acceptReq.From]) ∧
    ((smsWebhook (okEnv 5) [bobDoc, aliceDoc] acceptReq).sent.map Msg.toNumber =
      [aliceDoc.data.phone, acceptReq.From]) ∧
    ((smsWebhook (okEnv 5) [aliceDoc, bobDoc] acceptReq).store.pending = [aliceDoc]) ∧
    ((smsWebhook (okEnv 5) [bobDoc, aliceDoc] acceptReq).store.pending = [bobDoc]) ∧
    (smsWebhook (okEnv 5) [aliceDoc, bobDoc] acceptReq).sent ≠
      (smsWebhook (okEnv 5) [bobDoc, aliceDoc] acceptReq).sent :=
  ⟨List.Perm.swap _ _ _, by decide, by decide, by decide, by decide, by decide, by decide⟩

/-- C2 (amended): an acceptance reply resolves to the last pending booking, in
the store's enumeration order, whose identifier contains the candidate: that
booking is confirmed and texted. Hence two enumerations of the same documents
that agree on this last match give the same messages and responses and the
same stored documents. -/
theorem ambiguous_reply_resolves_last_match :
    (∀ (env : Env) (store : Store) (req : WebhookReq) (body : Str) (last : Doc),
      req.Body = some body →
      startsWith (normalize env.upper body) "ACCEPT".toList = true →
      lastMatch (bookingIdPart (normalize env.upper body)) store.pending = some last →
      last.id ≠ [] →
      env.storeReadOk = true → env.storeWriteOk = true →
      env.send ⟨confirmMessage last.data, env.twilioPhone, last.data.phone⟩ ≠ none →
      (smsWebhook env store req).store = store.modify last.id (confirmFields env req) ∧
      (smsWebhook env store req).sent =
        [⟨confirmMessage last.data, env.twilioPhone, last.data.phone⟩,
         ⟨ackMessage, env.twilioPhone, req.From⟩]) ∧
    (∀ (env : Env) (s1 s2 : Store) (req : WebhookReq),
      s1.Perm s2 →
      (∀ body, req.Body = some body →
        lastMatch (bookingIdPart (normalize env.upper body)) s1.pending =
          lastMatch (bookingIdPart (normalize env.upper body)) s2.pending) →
      (smsWebhook env s1 req).sent = (smsWebhook env s2 req).sent ∧
      (smsWebhook env s1 req).responses = (smsWebhook env s2 req).responses ∧
      (smsWebhook env s1 req).store.Perm (smsWebhook env s2 req).store) := by
  refine ⟨?_, ?_⟩
  · intro env store req body last hbody hacc hlast hid hread hwrite hsend
    exact webhook_confirms_last_match env store req body last hbody hacc hlast hid hread
      hwrite hsend
  · intro env s1 s2 req hperm hlast
    unfold smsWebhook
    rw [resolveStep_congr env s1 s2 req hlast]
    exact applyStep_perm env req _ hperm

theorem ambiguous_reply_resolves_last_match_witness :
    ((smsWebhook (okEnv 5) [aliceDoc, bobDoc] acceptReq).store =
        Store.modify [aliceDoc, bobDoc] bobDoc.id (confirmFields (okEnv 5) acceptReq) ∧
      (smsWebhook (okEnv 5) [aliceDoc, bobDoc] acceptReq).sent =
        [⟨confirmMessage bobDoc.data, (okEnv 5).twilioPhone, bobDoc.data.phone⟩,
         ⟨ackMessage, (okEnv 5).twilioPhone, acceptReq.From⟩]) ∧
    ((smsWebhook (okEnv 5) [aliceDoc, carolDoc] acceptReq).sent =
        (smsWebhook (okEnv 5) [carolDoc, aliceDoc] acceptReq).sent ∧
      (smsWebhook (okEnv 5) [aliceDoc, carolDoc] acceptReq).responses =
        (smsWebhook (okEnv 5) [carolDoc, aliceDoc] acceptReq).responses ∧
      (smsWebhook (okEnv 5) [aliceDoc, carolDoc] acceptReq).store.Perm
        (smsWebhook (okEnv 5) [carolDoc, aliceDoc] acceptReq).store) :=
  ⟨ambiguous_reply_resolves_last_match.1 (okEnv 5) [aliceDoc, bobDoc] acceptReq
      "accept 173000".toList bobDoc rfl (by decide) (by decide) (by decide) rfl rfl (by decide),
   ambiguous_reply_resolves_last_match.2 (okEnv 5) [aliceDoc, carolDoc] [carolDoc, aliceDoc]
      acceptReq (List.Perm.swap _ _ _) (fun body hb => by cases hb; decide)⟩

theorem pending_modify_confirm (env : Env) (req : WebhookReq) (store : Store) (id : Str) :
    (store.modify id (confirmFields env req)).pending =
      store.pending.filter (fun d => decide (d.id ≠ id)) := by
  have hc : (some statusConfirmed : Option Str) ≠ some statusPending := by decide
  induction store with
  | nil => rfl
  | cons d ds ih =>
    simp only [Store.modify, Store.pending] at ih ⊢
    rw [List.map_cons, List.filter_cons, ih]
    have hP : ¬ (confirmFields env req d.data).status = some statusPending := fun h => hc h
    by_cases hd : d.id = id
    · by_cases hp : d.data.status = some statusPending <;>
        simp [List.filter_cons, hd, hp, hP]
    · by_cases hp : d.data.status = some statusPending <;>
        simp [List.filter_cons, hd, hp]

/-- C3 (counterexample): two replies both resolve the one pending booking on
the initial store, then apply in turn. Both writes succeed: the second
overwrites `confirmedBy` and `confirmedAt`, and the customer is sent the
confirmation twice. -/
theorem interleaved_replies_both_confirm :
    raceFirst = smsWebhook (okEnv 5) [aliceDoc] acceptReq ∧
    resolveStep laterEnv [aliceDoc] secondReq =
      Resolution.resolved (some "173000".toList) (some aliceDoc.data) (some aliceDoc.id) ∧
    (raceFirst.store.lookup aliceDoc.id).map Booking.confirmedBy = some acceptReq.From ∧
    (raceSecond.store.lookup aliceDoc.id).map Booking.confirmedBy = some secondReq.From ∧
    (raceFirst.store.lookup aliceDoc.id).map Booking.confirmedAt = some (some (okEnv 5).isoNow) ∧
    (raceSecond.store.lookup aliceDoc.id).map Booking.confirmedAt = some (some laterEnv.isoNow) ∧
    raceFirst.sent.map Msg.toNumber = [aliceDoc.data.phone, acceptReq.From] ∧
    raceSecond.sent = [⟨confirmMessage aliceDoc.data, laterEnv.twilioPhone, aliceDoc.data.phone⟩,
                       ⟨ackMessage, laterEnv.twilioPhone, secondReq.From⟩] ∧
    raceSecond.responses = [⟨200, emptyAck⟩] := by
  refine ⟨rfl, ?_, ?_, ?_, ?_, ?_, ?_, ?_, ?_⟩ <;> decide

/-- C3 (amended): the write is an unconditional update of the resolved
document. When a second reply with the same code is handled after the first
one has confirmed the only pending booking matching it, the second reply
finds no pending match: it leaves the store, `confirmedAt` and `confirmedBy`
included, as the first left it and hands the transport only the not-found
notice to its own sender. -/
theorem second_reply_after_confirmation (env1 env2 : Env) (store : Store)
    (req1 req2 : WebhookReq) (body1 body2 : Str) (B : Doc) (t : Nat)
    (hbody1 : req1.Body = some body1)
    (hnorm1 : normalize env1.upper body1 = "ACCEPT ".toList ++ shortCode B.id)
    (hB : B ∈ store.pending)
    (hid : B.id = newId t)
    (huniq : ∀ d ∈ store.pending, includes d.id (shortCode B.id) = true → d = B)
    (hread1 : env1.storeReadOk = true) (hwrite1 : env1.storeWriteOk = true)
    (hsend1 : env1.send ⟨confirmMessage B.data, env1.twilioPhone, B.data.phone⟩ ≠ none)
    (hbody2 : req2.Body = some body2)
    (hnorm2 : normalize env2.upper body2 = "ACCEPT ".toList ++ shortCode B.id)
    (hread2 : env2.storeReadOk = true) :
    (smsWebhook env1 store req1).store = store.modify B.id (confirmFields env1 req1) ∧
    (smsWebhook env2 (smsWebhook env1 store req1).store req2).store =
      (smsWebhook env1 store req1).store ∧
    (smsWebhook env2 (smsWebhook env1 store req1).store req2).sent =
      [⟨notFoundMessage (some (shortCode B.id)), env2.twilioPhone, req2.From⟩] := by
  have hsp : ' ' ∉ shortCode B.id := hid ▸ shortCode_newId_no_space t
  have hne : B.id ≠ [] := hid ▸ newId_ne_nil t
  have hpart1 : bookingIdPart (normalize env1.upper body1) = some (shortCode B.id) := by
    rw [hnorm1]; exact bookingIdPart_accept_code _ hsp
  have hacc1 : startsWith (normalize env1.upper body1) "ACCEPT".toList = true := by
    rw [hnorm1]; exact startsWith_accept_code _
  have hpart2 : bookingIdPart (normalize env2.upper body2) = some (shortCode B.id) := by
    rw [hnorm2]; exact bookingIdPart_accept_code _ hsp
  have hacc2 : startsWith (normalize env2.upper body2) "ACCEPT".toList = true := by
    rw [hnorm2]; exact startsWith_accept_code _
  have hlast : lastMatch (bookingIdPart (normalize env1.upper body1)) store.pending = some B := by
    rw [hpart1]; exact lastMatch_unique hB (includes_substring _ _ _) huniq
  have h1 := webhook_confirms_last_match env1 store req1 body1 B hbody1 hacc1 hlast hne
    hread1 hwrite1 hsend1
  have hno : ∀ d ∈ (smsWebhook env1 store req1).store.pending,
      includes d.id (jsString (bookingIdPart (normalize env2.upper body2))) = false := by
    intro d hd
    rw [h1.1, pending_modify_confirm, List.mem_filter] at hd
    rw [hpart2]
    cases hinc : includes d.id (jsString (some (shortCode B.id))) with
    | false => rfl
    | true =>
      have hdB : d = B := huniq d hd.1 hinc
      have : d.id ≠ B.id := by simpa using hd.2
      exact absurd (congrArg Doc.id hdB) this
  have hres := resolveStep_accept env2 (smsWebhook env1 store req1).store req2 body2 hbody2
    hacc2 hread2
  rw [lastMatch_eq_none hno, hpart2] at hres
  refine ⟨h1.1, ?_, ?_⟩
  · show (applyStep env2 _ req2 (resolveStep env2 _ req2)).store = _
    rw [hres]
    exact (applyStep_unmatched env2 _ req2 _).1
  · show (applyStep env2 _ req2 (resolveStep env2 _ req2)).sent = _
    rw [hres]
    exact (applyStep_unmatched env2 _ req2 _).2

theorem second_reply_after_confirmation_witness :
    (smsWebhook (okEnv 5) [aliceDoc] acceptReq).store =
      Store.modify [aliceDoc] aliceDoc.id (confirmFields (okEnv 5) acceptReq) ∧
    (smsWebhook laterEnv (smsWebhook (okEnv 5) [aliceDoc] acceptReq).store secondReq).store =
      (smsWebhook (okEnv 5) [aliceDoc] acceptReq).store ∧
    (smsWebhook laterEnv (smsWebhook (okEnv 5) [aliceDoc] acceptReq).store secondReq).sent =
      [⟨notFoundMessage (some (shortCode aliceDoc.id)), laterEnv.twilioPhone, secondReq.From⟩] :=
  second_reply_after_confirmation (okEnv 5) laterEnv [aliceDoc] acceptReq secondReq
    "accept 173000".toList "ACCEPT 173000".toList aliceDoc 1730000000000
    rfl (by decide) (by decide) rfl (by decide) rfl rfl (by decide) rfl (by decide) rfl

/-! ## Intake -/

theorem find_map_replace (s : Store) (id : Str) (data : Booking) (h : s.has id = true) :
    (s.map (fun d => if d.id = id then (⟨id, data⟩ : Doc) else d)).find? (fun d => d.id = id) =
      some ⟨id, data⟩ := by
  induction s with
  | nil => simp [Store.has] at h
  | cons d ds ih =>
    by_cases hd : d.id = id
    · simp [hd]
    · have hds : Store.has ds id = true := by
        simpa [Store.has, hd] using h
      simp [List.find?_cons, hd, ih hds]

theorem find_none_of_not_has (s : Store) (id : Str) (h : ¬ s.has id = true) :
    s.find? (fun d => d.id = id) = none := by
  simp only [Store.has, List.any_eq_true, not_exists, not_and] at h
  simp only [List.find?_eq_none]
  intro d hd
  exact h d hd

theorem lookup_set_same (s : Store) (id : Str) (data : Booking) :
    (s.set id data).lookup id = some data := by
  unfold Store.set Store.lookup
  by_cases h : s.has id = true
  · rw [if_pos h, find_map_replace s id data h]; rfl
  · rw [if_neg h, List.find?_append, find_none_of_not_has s id h]
    simp

theorem lookup_set_other (s : Store) (id id1 : Str) (data : Booking) (hne : id ≠ id1) :
    (s.set id data).lookup id1 = s.lookup id1 := by
  unfold Store.set Store.lookup
  by_cases h : s.has id = true
  · rw [if_pos h]
    congr 1
    induction s with
    | nil => rfl
    | cons d ds ih =>
      by_cases hd : d.id = id
      · have hd1 : ¬ d.id = id1 := fun e => hne (hd.symm.trans e)
        by_cases hds : Store.has ds id = true
        · simp [List.find?_cons, hd, hd1, hne, ih hds]
        · have hmap : ds.map (fun d => if d.id = id then (⟨id, data⟩ : Doc) else d) = ds := by
            simp only [Store.has, List.any_eq_true, not_exists, not_and] at hds
            conv_rhs => rw [← List.map_id ds]
            apply List.map_congr_left
            intro x hx
            have : ¬ x.id = id := fun e => hds x hx (by simp [e])
            simp [this]
          simp [List.find?_cons, hd, hd1, hne, hmap]
      · have hds : Store.has ds id = true := by
          simpa [Store.has, hd] using h
        simp [List.find?_cons, hd, ih hds]
  · rw [if_neg h, List.find?_append]
    simp [hne]

theorem mem_set (s : Store) (id : Str) (data : Booking) : (⟨id, data⟩ : Doc) ∈ s.set id data := by
  unfold Store.set
  by_cases h : s.has id = true
  · rw [if_pos h]
    simp only [Store.has, List.any_eq_true] at h
    obtain ⟨d, hd, e⟩ := h
    have e1 : d.id = id := by simpa using e
    simp only [List.mem_map]
    exact ⟨d, hd, by rw [if_pos e1]⟩
  · rw [if_neg h]; simp

theorem sendBookingSms_store (env : Env) (store : Store) (req : IntakeReq) :
    (sendBookingSms env store req).store =
      match req.bookingData with
      | none => store
      | some payload =>
        if env.storeWriteOk then store.set (newId env.now) (intakeRecord env req payload)
        else store := by
  unfold sendBookingSms
  cases req.bookingData with
  | none => rfl
  | some payload =>
    dsimp only
    cases env.storeWriteOk with
    | false => rfl
    | true =>
      simp only [if_true]
      split
      · rfl
      · split <;> rfl

theorem intakeRun_lookup_other (id : Str) (calls : List (Env × IntakeReq)) :
    ∀ store : Store, (∀ c ∈ calls, newId c.1.now ≠ id) →
      (intakeRun store calls).lookup id = store.lookup id := by
  induction calls with
  | nil => intro store _; rfl
  | cons c cs ih =>
    intro store h
    rw [intakeRun, ih _ (fun c1 hc1 => h c1 (List.mem_cons_of_mem _ hc1)), sendBookingSms_store]
    have hc : newId c.1.now ≠ id := h c (List.mem_cons_self _ _)
    cases c.2.bookingData with
    | none => rfl
    | some payload =>
      cases c.1.storeWriteOk with
      | false => rfl
      | true => exact lookup_set_other _ _ _ _ hc

/-- C5 (counterexample): intake accepts the specification's example payload,
which has no status field, and persists it without a status; the pending
query does not return it. -/
theorem example_payload_stored_without_status :
    (sendBookingSms (okEnv 1730000000000) [] ⟨some alicePayload, []⟩).responses =
      [IntakeResponse.success (newId 1730000000000) "SM1".toList "SM1".toList] ∧
    ((sendBookingSms (okEnv 1730000000000) [] ⟨some alicePayload, []⟩).store.lookup
      (newId 1730000000000)).map Booking.status = some none ∧
    (sendBookingSms (okEnv 1730000000000) [] ⟨some alicePayload, []⟩).store.pending = [] := by
  refine ⟨?_, ?_, ?_⟩ <;> decide

/-- C5 (amended): for every payload that intake persists, the stored record
carries the status of the payload unchanged, so it is returned by the pending
query exactly when the payload itself has status `pending`. -/
theorem intake_keeps_payload_status (env : Env) (store : Store) (req : IntakeReq)
    (payload : Booking)
    (hdata : req.bookingData = some payload) (hwrite : env.storeWriteOk = true) :
    (sendBookingSms env store req).store.lookup (newId env.now) =
      some (intakeRecord env req payload) ∧
    (intakeRecord env req payload).status = payload.status ∧
    ((⟨newId env.now, intakeRecord env req payload⟩ : Doc) ∈
        (sendBookingSms env store req).store.pending ↔
      payload.status = some statusPending) := by
  have hs : (sendBookingSms env store req).store =
      store.set (newId env.now) (intakeRecord env req payload) := by
    rw [sendBookingSms_store, hdata]
    simp [hwrite]
  rw [hs]
  refine ⟨lookup_set_same _ _ _, rfl, ?_⟩
  simp only [Store.pending, List.mem_filter, decide_eq_true_eq]
  constructor
  · intro h; exact h.2
  · intro h; exact ⟨mem_set _ _ _, h⟩

theorem intake_keeps_payload_status_witness :
    (sendBookingSms (okEnv 1730000000000) [] ⟨some alicePending, []⟩).store.lookup
        (newId (okEnv 1730000000000).now) =
      some (intakeRecord (okEnv 1730000000000) ⟨some alicePending, []⟩ alicePending) ∧
    (intakeRecord (okEnv 1730000000000) ⟨some alicePending, []⟩ alicePending).status =
      alicePending.status ∧
    ((⟨newId (okEnv 1730000000000).now,
        intakeRecord (okEnv 1730000000000) ⟨some alicePending, []⟩ alicePending⟩ : Doc) ∈
        (sendBookingSms (okEnv 1730000000000) [] ⟨some alicePending, []⟩).store.pending ↔
      alicePending.status = some statusPending) :=
  intake_keeps_payload_status (okEnv 1730000000000) [] ⟨some alicePending, []⟩ alicePending
    rfl rfl

/-- C6 (counterexample): two intake calls at the same clock reading get the
same identifier; the second call succeeds and the store holds only its record,
the first call's record having been replaced. -/
theorem same_clock_intake_overwrites :
    newId (okEnv 1730000000000).now = newId (okEnv 1730000000000).now ∧
    (sendBookingSms (okEnv 1730000000000) [] ⟨some alicePending, []⟩).store.lookup
        (newId 1730000000000) =
      some (intakeRecord (okEnv 1730000000000) ⟨some alicePending, []⟩ alicePending) ∧
    (sendBookingSms (okEnv 1730000000000)
        (sendBookingSms (okEnv 1730000000000) [] ⟨some alicePending, []⟩).store
        ⟨some bobPending, []⟩).responses =
      [IntakeResponse.success (newId 1730000000000) "SM1".toList "SM1".toList] ∧
    sameClockIntakes =
      [⟨newId 1730000000000,
        intakeRecord (okEnv 1730000000000) ⟨some bobPending, []⟩ bobPending⟩] ∧
    sameClockIntakes.lookup (newId 1730000000000) ≠
      some (intakeRecord (okEnv 1730000000000) ⟨some alicePending, []⟩ alicePending) := by
  refine ⟨rfl, ?_, ?_, ?_, ?_⟩ <;> decide

/-- C6 (amended): for every run of intake calls with strictly increasing clock
readings, the identifiers assigned are pairwise distinct, and the record each
call persisted is still stored under its identifier after all later calls. -/
theorem intake_ids_distinct_for_increasing_clock (store : Store)
    (calls : List (Env × IntakeReq))
    (hclock : calls.Pairwise (fun a b => a.1.now < b.1.now)) :
    (calls.map (fun c => newId c.1.now)).Nodup ∧
    ∀ c ∈ calls, ∀ payload, c.2.bookingData = some payload → c.1.storeWriteOk = true →
      (intakeRun store calls).lookup (newId c.1.now) = some (intakeRecord c.1 c.2 payload) := by
  constructor
  · exact List.Pairwise.map _
      (fun a b hab e => absurd (newId_injective e) (Nat.ne_of_lt hab)) hclock
  · induction calls generalizing store with
    | nil => intro c hc; exact absurd hc (List.not_mem_nil _)
    | cons c0 cs ih =>
      rw [List.pairwise_cons] at hclock
      intro c hc payload hdata hwrite
      rw [intakeRun]
      rcases List.mem_cons.1 hc with rfl | hmem
      · rw [intakeRun_lookup_other _ cs _
          (fun c1 hc1 e => absurd (newId_injective e).symm (Nat.ne_of_lt (hclock.1 c1 hc1)))]
        rw [sendBookingSms_store, hdata]
        simp only [hwrite, if_true]
        exact lookup_set_same _ _ _
      · exact ih _ hclock.2 c hmem payload hdata hwrite

theorem intake_ids_distinct_for_increasing_clock_witness :
    ([(okEnv 1730000000000, (⟨some alicePending, []⟩ : IntakeReq)),
      (okEnv 1730000000001, ⟨some bobPending, []⟩)].map (fun c => newId c.1.now)).Nodup ∧
    ∀ c ∈ [(okEnv 1730000000000, (⟨some alicePending, []⟩ : IntakeReq)),
           (okEnv 1730000000001, ⟨some bobPending, []⟩)],
      ∀ payload, c.2.bookingData = some payload → c.1.storeWriteOk = true →
        (intakeRun [] [(okEnv 1730000000000, (⟨some alicePending, []⟩ : IntakeReq)),
           (okEnv 1730000000001, ⟨some bobPending, []⟩)]).lookup (newId c.1.now) =
          some (intakeRecord c.1 c.2 payload) :=
  intake_ids_distinct_for_increasing_clock []
    [(okEnv 1730000000000, ⟨some alicePending, []⟩), (okEnv 1730000000001, ⟨some bobPending, []⟩)]
    (by simp [okEnv])

/-- C7: two bookings taken in by intake one millisecond apart are both pending,
have distinct identifiers, and have the same short code `173000`. -/
theorem two_pending_bookings_share_short_code :
    twoIntakes.pending.map Doc.id = [newId 1730000000000, newId 1730000000001] ∧
    newId 1730000000000 ≠ newId 1730000000001 ∧
    shortCode (newId 1730000000000) = "173000".toList ∧
    shortCode (newId 1730000000001) = "173000".toList := by
  refine ⟨?_, ?_, ?_, ?_⟩ <;> decide

/-- C8: for the body `ACCEPT  173000` (two spaces) the second
whitespace-delimited token is `173000`, but the handler's candidate is the
empty text, which every identifier includes: the reply confirms a pending
booking whose identifier does not contain `173000`. With a tab as separator
the handler has no candidate at all. -/
theorem double_space_candidate_is_empty :
    startsWith (normalize asciiUpper "ACCEPT  173000".toList) "ACCEPT".toList = true ∧
    secondToken (normalize asciiUpper "ACCEPT  173000".toList) = some "173000".toList ∧
    bookingIdPart (normalize asciiUpper "ACCEPT  173000".toList) = some [] ∧
    secondToken (normalize asciiUpper "ACCEPT\t173000".toList) = some "173000".toList ∧
    bookingIdPart (normalize asciiUpper "ACCEPT\t173000".toList) = none ∧
    includes daveDoc.id "173000".toList = false ∧
    (smsWebhook (okEnv 5) [daveDoc] doubleSpaceReq).store =
      [⟨daveDoc.id, confirmFields (okEnv 5) doubleSpaceReq daveDoc.data⟩] ∧
    (smsWebhook (okEnv 5) [daveDoc] doubleSpaceReq).sent =
      [⟨confirmMessage daveDoc.data, (okEnv 5).twilioPhone, daveDoc.data.phone⟩,
       ⟨ackMessage, (okEnv 5).twilioPhone, doubleSpaceReq.From⟩] := by
  refine ⟨?_, ?_, ?_, ?_, ?_, ?_, ?_, ?_⟩ <;> decide

/-- C10 (counterexample): a payload without `customerName` is taken in like
any other: the caller gets a success answer, the record is stored and both
notifications are handed to the transport. A payload without `phone` is
stored and the employee is notified before the caller gets a failure answer,
when the transport refuses the customer message for want of a recipient. -/
theorem payload_without_name_is_accepted :
    namelessPayload.customerName = none ∧
    (sendBookingSms (okEnv 1730000000000) [] ⟨some namelessPayload, []⟩).responses =
      [IntakeResponse.success (newId 1730000000000) "SM1".toList "SM1".toList] ∧
    (sendBookingSms (okEnv 1730000000000) [] ⟨some namelessPayload, []⟩).store =
      [⟨newId 1730000000000,
        intakeRecord (okEnv 1730000000000) ⟨some namelessPayload, []⟩ namelessPayload⟩] ∧
    (sendBookingSms (okEnv 1730000000000) [] ⟨some namelessPayload, []⟩).sent.map Msg.toNumber =
      [(okEnv 1730000000000).employeePhone, namelessPayload.phone] ∧
    phonelessPayload.phone = none ∧
    (sendBookingSms (strictEnv 1730000000000) [] ⟨some phonelessPayload, []⟩).responses =
      [IntakeResponse.failure] ∧
    (sendBookingSms (strictEnv 1730000000000) [] ⟨some phonelessPayload, []⟩).store =
      [⟨newId 1730000000000,
        intakeRecord (strictEnv 1730000000000) ⟨some phonelessPayload, []⟩ phonelessPayload⟩] ∧
    (sendBookingSms (strictEnv 1730000000000) [] ⟨some phonelessPayload, []⟩).sent.map
        Msg.toNumber =
      [(strictEnv 1730000000000).employeePhone, none] := by
  refine ⟨rfl, ?_, ?_, ?_, rfl, ?_, ?_, ?_⟩ <;> decide

/-- C10 (amended): intake checks no field of the payload. For every payload
that parses, whatever fields it lacks, once the store write succeeds the
record is persisted under the new identifier and the employee notification is
handed to the transport; what follows depends on the transport alone: a
refused employee message ends in a failure answer with that one message, a
refused customer message in a failure answer with both, and two accepted
messages in a success answer. Intake reports a failure with the store
unchanged and no notification when `bookingData` cannot be parsed into an
object or when the store write fails. -/
theorem intake_checks_no_field :
    (∀ (env : Env) (store : Store) (req : IntakeReq) (payload : Booking),
      req.bookingData = some payload → env.storeWriteOk = true →
      (sendBookingSms env store req).store =
        store.set (newId env.now) (intakeRecord env req payload) ∧
      (sendBookingSms env store req).sent.head? =
        some ⟨employeeMessage (intakeRecord env req payload) (newId env.now),
          env.twilioPhone, env.employeePhone⟩ ∧
      (env.send ⟨employeeMessage (intakeRecord env req payload) (newId env.now),
          env.twilioPhone, env.employeePhone⟩ = none →
        (sendBookingSms env store req).sent =
          [⟨employeeMessage (intakeRecord env req payload) (newId env.now),
            env.twilioPhone, env.employeePhone⟩] ∧
        (sendBookingSms env store req).responses = [IntakeResponse.failure]) ∧
      (∀ employeeSid,
        env.send ⟨employeeMessage (intakeRecord env req payload) (newId env.now),
          env.twilioPhone, env.employeePhone⟩ = some employeeSid →
        (sendBookingSms env store req).sent =
          [⟨employeeMessage (intakeRecord env req payload) (newId env.now),
            env.twilioPhone, env.employeePhone⟩,
           ⟨customerMessage (intakeRecord env req payload), env.twilioPhone, payload.phone⟩] ∧
        (env.send ⟨customerMessage (intakeRecord env req payload), env.twilioPhone,
            payload.phone⟩ = none →
          (sendBookingSms env store req).responses = [IntakeResponse.failure]) ∧
        (∀ customerSid,
          env.send ⟨customerMessage (intakeRecord env req payload), env.twilioPhone,
            payload.phone⟩ = some customerSid →
          (sendBookingSms env store req).responses =
            [IntakeResponse.success (newId env.now) employeeSid customerSid]))) ∧
    (∀ (env : Env) (store : Store) (req : IntakeReq),
      req.bookingData = none ∨ env.storeWriteOk = false →
      (sendBookingSms env store req).responses = [IntakeResponse.failure] ∧
      (sendBookingSms env store req).store = store ∧
      (sendBookingSms env store req).sent = []) := by
  refine ⟨?_, ?_⟩
  · intro env store req payload hdata hwrite
    have hphone : (intakeRecord env req payload).phone = payload.phone := rfl
    unfold sendBookingSms
    rw [hdata]
    simp only [hwrite, if_true, hphone]
    cases h1 : env.send ⟨employeeMessage (intakeRecord env req payload) (newId env.now),
        env.twilioPhone, env.employeePhone⟩ with
    | none => simp
    | some sid1 =>
      cases h2 : env.send ⟨customerMessage (intakeRecord env req payload), env.twilioPhone,
          payload.phone⟩ with
      | none => simp
      | some sid2 => simp
  · intro env store req h
    unfold sendBookingSms
    cases hb : req.bookingData with
    | none => exact ⟨rfl, rfl, rfl⟩
    | some payload =>
      rcases h with h | h
      · rw [hb] at h; exact absurd h (by simp)
      · simp [h]

theorem intake_checks_no_field_witness :
    ((sendBookingSms (strictEnv 1730000000000) [aliceDoc] ⟨some phonelessPayload, []⟩).store =
        Store.set [aliceDoc] (newId (strictEnv 1730000000000).now)
          (intakeRecord (strictEnv 1730000000000) ⟨some phonelessPayload, []⟩ phonelessPayload) ∧
      (sendBookingSms (strictEnv 1730000000000) [aliceDoc]
          ⟨some phonelessPayload, []⟩).sent.head? =
        some ⟨employeeMessage
            (intakeRecord (strictEnv 1730000000000) ⟨some phonelessPayload, []⟩ phonelessPayload)
            (newId (strictEnv 1730000000000).now),
          (strictEnv 1730000000000).twilioPhone, (strictEnv 1730000000000).employeePhone⟩) ∧
    ((sendBookingSms (okEnv 1730000000000) [aliceDoc] ⟨none, []⟩).responses =
        [IntakeResponse.failure] ∧
      (sendBookingSms (okEnv 1730000000000) [aliceDoc] ⟨none, []⟩).store = [aliceDoc] ∧
      (sendBookingSms (okEnv 1730000000000) [aliceDoc] ⟨none, []⟩).sent = []) :=
  ⟨⟨(intake_checks_no_field.1 (strictEnv 1730000000000) [aliceDoc]
        ⟨some phonelessPayload, []⟩ phonelessPayload rfl rfl).1,
    (intake_checks_no_field.1 (strictEnv 1730000000000) [aliceDoc]
        ⟨some phonelessPayload, []⟩ phonelessPayload rfl rfl).2.1⟩,
   intake_checks_no_field.2 (okEnv 1730000000000) [aliceDoc] ⟨none, []⟩ (Or.inl rfl)⟩

end TopLawns
